import Mathlib

/-!
Verification of the binary wire-protocol subsystem of the `linuxc` repository:
the big-endian scalar wrapper (`be.rs`), the socket-address model and the
retrying raw-I/O helpers (`socket.rs`), and the Netlink/Rtnetlink codec and
gateway-resolution filter (`netlink.rs`).

The embedding works over byte buffers modelled as `List Nat` (each element a
byte value `< 256`).  The pinned target ABI is x86_64 Linux (little-endian);
where host byte order matters the definitions take an explicit `hostLE : Bool`
flag (`true` = little-endian host), elsewhere the little-endian layout is
used directly.  Rust panics, `todo!`, `unimplemented!`, `unreachable!` and
undefined behaviour (reads of invalid enum discriminants, out-of-bounds
reads) are modelled as `Option.none`.
-/

namespace Linuxc

/-! Byte-sequence primitives -/

/-- Little-endian byte decomposition of `x` into exactly `w` bytes
(truncating above `256 ^ w`, exactly as a `w`-byte machine integer does). -/
def bytesLE : Nat → Nat → List Nat
  | 0, _ => []
  | w + 1, x => x % 256 :: bytesLE w (x / 256)

/-- Big-endian byte decomposition of `x` into exactly `w` bytes. -/
def bytesBE (w x : Nat) : List Nat := (bytesLE w x).reverse

/-- Recompose a little-endian byte list into a natural number. -/
def fromBytesLE : List Nat → Nat
  | [] => 0
  | b :: bs => b + 256 * fromBytesLE bs

/-- Read the `w`-byte little-endian (native, on the pinned target) scalar that
starts at offset `i` of buffer `bs`.  Bytes past the end of the buffer read
as `0`. -/
def readLE (bs : List Nat) (i w : Nat) : Nat := fromBytesLE ((bs.drop i).take w)

/-! Model of `be.rs`.

The Rust source generates `U16Be`, `U32Be`, `U64Be` by one macro over the
storage width; we embed the macro body once, parametrised by the width `w`
in bytes.  `natToBe hostLE w` is Rust `uN::to_be` (byte swap on a
little-endian host, identity on a big-endian host); `natFromBe` is
`uN::from_be`, the same function. -/

/-- Reverse the `w`-byte representation of `x` (the `bswap` instruction). -/
def bswap (w x : Nat) : Nat := fromBytesLE (bytesLE w x).reverse

/-- Rust `uN::to_be`: byte swap on a little-endian host, identity otherwise. -/
def natToBe (hostLE : Bool) (w x : Nat) : Nat := if hostLE then bswap w x else x

/-- Rust `uN::from_be`: byte swap on a little-endian host, identity otherwise. -/
def natFromBe (hostLE : Bool) (w x : Nat) : Nat := if hostLE then bswap w x else x

/-- The native-order byte decomposition of `x` on the given host
(Rust `uN::to_ne_bytes` on the plain integer `x`). -/
def natToNeBytes (hostLE : Bool) (w x : Nat) : List Nat :=
  if hostLE then bytesLE w x else bytesBE w x

/-- A `w`-byte unsigned scalar stored in big-endian order (the macro-generated
`U16Be`/`U32Be`/`U64Be` of `be.rs`); `raw` is the stored bit pattern. -/
structure UBe (w : Nat) where
  raw : Nat
  deriving DecidableEq, Repr

/-- `from_ne(x) = Self(x.to_be())`. -/
def UBe.from_ne (hostLE : Bool) (w x : Nat) : UBe w := ⟨natToBe hostLE w x⟩

/-- `new` delegates to `from_ne`. -/
def UBe.new (hostLE : Bool) (w x : Nat) : UBe w := UBe.from_ne hostLE w x

/-- `to_ne() = uN::from_be(self.0)`. -/
def UBe.to_ne (hostLE : Bool) {w : Nat} (s : UBe w) : Nat :=
  natFromBe hostLE w s.raw

/-- `to_ne_bytes() = self.to_ne().to_ne_bytes()`: the native-order bytes of
the logical value. -/
def UBe.to_ne_bytes (hostLE : Bool) {w : Nat} (s : UBe w) : List Nat :=
  natToNeBytes hostLE w (s.to_ne hostLE)

/-- The in-memory bytes of the stored field `self.0` on the given host. -/
def UBe.storedBytes (hostLE : Bool) {w : Nat} (s : UBe w) : List Nat :=
  natToNeBytes hostLE w s.raw

abbrev U16Be := UBe 2
abbrev U32Be := UBe 4
abbrev U64Be := UBe 8

/-! Model of the socket-address layer of `socket.rs`.

Multi-byte scalar struct fields are carried as their stored bit patterns
(`Nat`), and serialisation lays them out in the little-endian order of the
pinned x86_64 target, matching a `transmute`/`ptr::read` byte copy.  A
`U16Be`/`U32Be` field therefore carries the already-byte-swapped stored
value, so its memory image is its little-endian decomposition. -/

/-- The `SaFamily` enum (`repr(u16)`): the address families this crate
recognises. -/
inductive SaFamily where
  | UnSpec
  | Local
  | Inet
  | Inet6
  | Packet
  deriving DecidableEq, Repr

/-- `derive_to_bits(u16)` for `SaFamily`. -/
def SaFamily.to_bits : SaFamily → Nat
  | .UnSpec => 0
  | .Local => 1
  | .Inet => 2
  | .Inet6 => 10
  | .Packet => 17

/-- `derive_from_bits(u16)` for `SaFamily`: an unchecked transmute in Rust;
a value that is no variant's discriminant is undefined behaviour, modelled
as `none`. -/
def SaFamily.from_bits (x : Nat) : Option SaFamily :=
  if x = 0 then some .UnSpec
  else if x = 1 then some .Local
  else if x = 2 then some .Inet
  else if x = 10 then some .Inet6
  else if x = 17 then some .Packet
  else none

/-- `SockAddrIn` (`repr(C)`, 16 bytes): `family: SaFamily` (u16, native),
`port: U16Be` (stored pattern), `addr: InAddr` (`U32Be` stored pattern),
`padding: [u8; 8]`. -/
structure SockAddrIn where
  family : SaFamily
  port : Nat
  addr : Nat
  padding : List Nat
  deriving DecidableEq, Repr

/-- `SockAddrIn6` (`repr(C)`, 28 bytes). -/
structure SockAddrIn6 where
  family : SaFamily
  port : Nat
  flowinfo : Nat
  addr : List Nat
  scope_id : Nat
  deriving DecidableEq, Repr

/-- `SockAddrUn` (`repr(C)`, 110 bytes): `family` + `path: [u8; 108]`. -/
structure SockAddrUn where
  family : SaFamily
  path : List Nat
  deriving DecidableEq, Repr

/-- `SockAddrLL` (`repr(C)`, 20 bytes): `family` (u16), `protocol: EthType`
(big-endian u16, stored pattern), `ifindex: i32` (native order, carried as
its u32 bit pattern), `hatype: HType` (big-endian u16, stored pattern),
`pkttype: u8`, `halen: u8`, `addr: PhyAddr` (8 bytes). -/
structure SockAddrLL where
  family : SaFamily
  protocol : Nat
  ifindex : Nat
  hatype : Nat
  pkttype : Nat
  halen : Nat
  addr : List Nat
  deriving DecidableEq, Repr

/-- `SockAddrNL` (`repr(C)`, 16 bytes): `family: SaNlFamily` (`repr(i32)`,
only discriminant `NetlinkRoute = 16`), `_padding: u16`, two alignment
padding bytes, `portid: i32` (u32 bit pattern), `groups: u32`. -/
structure SockAddrNL where
  family : Nat
  padding2 : Nat
  portid : Nat
  groups : Nat
  deriving DecidableEq, Repr

/-- The `SockAddr` tagged union. -/
inductive SockAddr where
  | Inet (a : SockAddrIn)
  | Inet6 (a : SockAddrIn6)
  | Unix (a : SockAddrUn)
  | Packet (a : SockAddrLL)
  | Netlink (a : SockAddrNL)
  deriving DecidableEq, Repr

/-- Memory image of a `SockAddrIn` on the little-endian target. -/
def SockAddrIn.toBytes (a : SockAddrIn) : List Nat :=
  bytesLE 2 a.family.to_bits ++ bytesLE 2 a.port ++ bytesLE 4 a.addr ++ a.padding

/-- Memory image of a `SockAddrIn6` on the little-endian target. -/
def SockAddrIn6.toBytes (a : SockAddrIn6) : List Nat :=
  bytesLE 2 a.family.to_bits ++ bytesLE 2 a.port ++ bytesLE 4 a.flowinfo ++
    a.addr ++ bytesLE 4 a.scope_id

/-- Memory image of a `SockAddrUn` on the little-endian target. -/
def SockAddrUn.toBytes (a : SockAddrUn) : List Nat :=
  bytesLE 2 a.family.to_bits ++ a.path

/-- Memory image of a `SockAddrLL` on the little-endian target. -/
def SockAddrLL.toBytes (a : SockAddrLL) : List Nat :=
  bytesLE 2 a.family.to_bits ++ bytesLE 2 a.protocol ++ bytesLE 4 a.ifindex ++
    bytesLE 2 a.hatype ++ [a.pkttype % 256] ++ [a.halen % 256] ++ a.addr

/-- Memory image of a `SockAddrNL` on the little-endian target (the two
alignment padding bytes between `_padding` and `portid` are written as 0). -/
def SockAddrNL.toBytes (a : SockAddrNL) : List Nat :=
  bytesLE 4 a.family ++ bytesLE 2 a.padding2 ++ [0, 0] ++
    bytesLE 4 a.portid ++ bytesLE 4 a.groups

/-- Memory image of each variant's payload struct (the buffer that
`SockAddr::as_ptr` exposes to the kernel). -/
def SockAddr.toBytes : SockAddr → List Nat
  | .Inet a => a.toBytes
  | .Inet6 a => a.toBytes
  | .Unix a => a.toBytes
  | .Packet a => a.toBytes
  | .Netlink a => a.toBytes

/-- `SockAddr::address_len`: `size_of` of the variant's payload struct. -/
def SockAddr.address_len : SockAddr → Nat
  | .Inet _ => 16
  | .Inet6 _ => 28
  | .Unix _ => 110
  | .Packet _ => 20
  | .Netlink _ => 16

/-- `ptr::read` of a `SockAddrIn` from a raw buffer (`SockAddrIn::from_raw`);
an invalid `SaFamily` discriminant is undefined behaviour (`none`). -/
def readSockAddrIn (bs : List Nat) : Option SockAddrIn :=
  (SaFamily.from_bits (readLE bs 0 2)).map fun f =>
    ⟨f, readLE bs 2 2, readLE bs 4 4, (bs.drop 8).take 8⟩

/-- `ptr::read` of a `SockAddrIn6` from a raw buffer. -/
def readSockAddrIn6 (bs : List Nat) : Option SockAddrIn6 :=
  (SaFamily.from_bits (readLE bs 0 2)).map fun f =>
    ⟨f, readLE bs 2 2, readLE bs 4 4, (bs.drop 8).take 16, readLE bs 24 4⟩

/-- `ptr::read` of a `SockAddrLL` from a raw buffer; an invalid `SaFamily` or
`PktType` (valid range 0–7) discriminant is undefined behaviour (`none`). -/
def readSockAddrLL (bs : List Nat) : Option SockAddrLL :=
  match SaFamily.from_bits (readLE bs 0 2) with
  | none => none
  | some f =>
    if readLE bs 10 1 ≤ 7 then
      some ⟨f, readLE bs 2 2, readLE bs 4 4, readLE bs 8 2, readLE bs 10 1,
        readLE bs 11 1, (bs.drop 12).take 8⟩
    else
      none

/-- `SockAddrUn::from_raw_parts`: asserts `addrlen > 2`, reads the family
tag via the unchecked `SaFamily::from_bits`, then
`copy_from_slice`-copies `addrlen - 2` bytes into the 108-byte `path`
(which panics unless `addrlen - 2 = 108`). -/
def SockAddrUn.from_raw_parts (bs : List Nat) (addrlen : Nat) :
    Option SockAddrUn :=
  if addrlen ≤ 2 then none
  else
    match SaFamily.from_bits (readLE bs 0 2) with
    | none => none
    | some f =>
      if addrlen - 2 = 108 then some ⟨f, (bs.drop 2).take 108⟩ else none

/-- `SockAddr::from_raw_parts`: asserts `addrlen ≥ 2`, reads the `sa_family`
tag at the start of the buffer and dispatches on it.  Exactly as in the
source, the `Local` family arm asserts `addrlen = size_of::<SockAddrLL>()`
and builds the `Packet` variant, the `Packet` family arm delegates to
`SockAddrUn::from_raw_parts` and builds the `Unix` variant, and there is no
arm for the Netlink family (16), which is not a `SaFamily` discriminant. -/
def SockAddr.from_raw_parts (bs : List Nat) (addrlen : Nat) : Option SockAddr :=
  if addrlen < 2 then none
  else
    match SaFamily.from_bits (readLE bs 0 2) with
    | none => none
    | some .UnSpec => none
    | some .Local =>
      if addrlen = 20 then (readSockAddrLL bs).map SockAddr.Packet else none
    | some .Inet =>
      if addrlen = 16 then (readSockAddrIn bs).map SockAddr.Inet else none
    | some .Inet6 =>
      if addrlen = 28 then (readSockAddrIn6 bs).map SockAddr.Inet6 else none
    | some .Packet =>
      (SockAddrUn.from_raw_parts bs addrlen).map SockAddr.Unix

/-! Model of the retrying raw-I/O helpers of `socket.rs`.

The underlying syscalls are replaced by a mock transport: a list of
per-call outcomes consumed in order (`ok n` = the call transferred `n`
bytes, `err e` = the call failed with POSIX error `e`).  The `_all`
helpers are the loops of the source run against that list; `none` means
the loop was still running when the mock outcomes ran out. -/

/-- A typed POSIX error (`errno.rs` `PosixError`), carried by its errno
code. -/
structure PosixError where
  code : Nat
  deriving DecidableEq, Repr

/-- `EINTR = 4`. -/
def PosixError.EINTR : PosixError := ⟨4⟩

/-- `EAGAIN = 11`. -/
def PosixError.EAGAIN : PosixError := ⟨11⟩

/-- One mock outcome of an underlying `send`/`recv`/`sendto`/`recvfrom`
call. -/
inductive IoOutcome where
  | ok (n : Nat)
  | err (e : PosixError)
  deriving DecidableEq, Repr

instance : DecidableEq (Except PosixError Nat) := fun
  | .ok a, .ok b =>
    if h : a = b then isTrue (by rw [h])
    else isFalse (by intro hh; injection hh; contradiction)
  | .ok _, .error _ => isFalse (by intro hh; exact Except.noConfusion hh)
  | .error _, .ok _ => isFalse (by intro hh; exact Except.noConfusion hh)
  | .error a, .error b =>
    if h : a = b then isTrue (by rw [h])
    else isFalse (by intro hh; injection hh; contradiction)

/-- The `recv_all` loop: `Ok(0)` breaks, `Ok(n)` adds to the running count,
`EAGAIN` breaks, `EINTR` retries, any other error propagates. -/
def recv_all : Nat → List IoOutcome → Option (Except PosixError Nat)
  | _, [] => none
  | cnt, IoOutcome.ok 0 :: _ => some (Except.ok cnt)
  | cnt, IoOutcome.ok (n + 1) :: rest => recv_all (cnt + (n + 1)) rest
  | cnt, IoOutcome.err e :: rest =>
    if e = PosixError.EAGAIN then some (Except.ok cnt)
    else if e = PosixError.EINTR then recv_all cnt rest
    else some (Except.error e)

/-- The `recvfrom_all` loop, textually the same control flow as
`recv_all`. -/
def recvfrom_all : Nat → List IoOutcome → Option (Except PosixError Nat)
  | _, [] => none
  | cnt, IoOutcome.ok 0 :: _ => some (Except.ok cnt)
  | cnt, IoOutcome.ok (n + 1) :: rest => recvfrom_all (cnt + (n + 1)) rest
  | cnt, IoOutcome.err e :: rest =>
    if e = PosixError.EAGAIN then some (Except.ok cnt)
    else if e = PosixError.EINTR then recvfrom_all cnt rest
    else some (Except.error e)

/-- The `send_all` loop: `cnt += send(&msg[cnt..])?` then break once
`cnt >= msg.len()`; every error (including `EINTR`/`EAGAIN`) propagates via
`?`. -/
def send_all (msgLen : Nat) : Nat → List IoOutcome → Option (Except PosixError Nat)
  | _, [] => none
  | cnt, IoOutcome.ok n :: rest =>
    if msgLen ≤ cnt + n then some (Except.ok (cnt + n))
    else send_all msgLen (cnt + n) rest
  | _, IoOutcome.err e :: _ => some (Except.error e)

/-- The `sendto_all` loop, textually the same control flow as `send_all`. -/
def sendto_all (msgLen : Nat) : Nat → List IoOutcome → Option (Except PosixError Nat)
  | _, [] => none
  | cnt, IoOutcome.ok n :: rest =>
    if msgLen ≤ cnt + n then some (Except.ok (cnt + n))
    else sendto_all msgLen (cnt + n) rest
  | _, IoOutcome.err e :: _ => some (Except.error e)

/-! Model of the Netlink/Rtnetlink codec of `netlink.rs`.

The cursor type `AlignedRawBufRef` comes from the collaborator crate
`m6ptr` (outside this repository).  Modelled from the spec: the cursor is
an offset into a backing slice with `remaining length`, `read typed value
and advance`, and `take N bytes as a sub-slice and advance` operations, and
alignment (to 4 bytes) is applied between successive frames/attributes,
i.e. taking `n` bytes advances the offset by the aligned length of `n`. -/

/-- Cursor state of an `AlignedRawBufRef` over a byte buffer. -/
structure AlignedBuf where
  data : List Nat
  pos : Nat
  deriving DecidableEq, Repr

/-- `rem_len`: bytes remaining after the cursor. -/
def AlignedBuf.rem_len (b : AlignedBuf) : Nat := b.data.length - b.pos

/-- C macro `NLMSG_ALIGN`: `(len + NLMSG_ALIGNTO - 1) & !(NLMSG_ALIGNTO - 1)`
with `NLMSG_ALIGNTO = 4`; on `Nat`, masking the low two bits off is division
and multiplication by 4. -/
def nlmsg_align (len : Nat) : Nat := (len + 3) / 4 * 4

/-- C macro `NLMSG_LENGTH`: aligned header size plus payload size. -/
def nlmsg_length (size : Nat) : Nat := nlmsg_align 16 + size

/-- C macro style `RTA_LENGTH`: attribute header size plus payload size. -/
def rta_len (size : Nat) : Nat := 4 + size

/-- `NlMsgHdr` (16 bytes): `len: u32` (total length, header included),
`ty: u16`, `flags: u16`, `seq: u32`, `pid: u32`. -/
structure NlMsgHdr where
  len : Nat
  ty : Nat
  flags : Nat
  seq : Nat
  pid : Nat
  deriving DecidableEq, Repr

/-- `NlMsgHdr::payload_len`: `len - size_of::<Self>()`, 0 when `len` is
smaller than the header size. -/
def NlMsgHdr.payload_len (h : NlMsgHdr) : Nat :=
  if h.len < 16 then 0 else h.len - 16

/-- `RtAttrHdr` (4 bytes): `len: u16` (header included), `ty: u16`. -/
structure RtAttrHdr where
  len : Nat
  ty : Nat
  deriving DecidableEq, Repr

/-- `RtAttrHdr::payload_len`: `len - size_of::<Self>()`, 0 when `len` is
smaller than the header size. -/
def RtAttrHdr.payload_len (h : RtAttrHdr) : Nat :=
  if h.len < 4 then 0 else h.len - 4

/-- `nlmsg_ok`: at least one full 16-byte header remains and the header's
declared `len` (the native-order u32 at the cursor) is between the header
size and the remaining length. -/
def nlmsg_ok (b : AlignedBuf) : Bool :=
  if 16 ≤ b.rem_len then
    decide (16 ≤ readLE b.data b.pos 4 ∧ readLE b.data b.pos 4 ≤ b.rem_len)
  else
    false

/-- `rta_ok`: same shape as `nlmsg_ok` against the 4-byte attribute header,
whose declared `len` is a native-order u16 at the cursor. -/
def rta_ok (b : AlignedBuf) : Bool :=
  if 4 ≤ b.rem_len then
    decide (4 ≤ readLE b.data b.pos 2 ∧ readLE b.data b.pos 2 ≤ b.rem_len)
  else
    false

/-- Read the `NlMsgHdr` whose 16 bytes start at offset `i` (all fields
native order on the pinned little-endian target). -/
def readNlMsgHdr (bs : List Nat) (i : Nat) : NlMsgHdr :=
  ⟨readLE bs i 4, readLE bs (i + 4) 2, readLE bs (i + 6) 2,
    readLE bs (i + 8) 4, readLE bs (i + 12) 4⟩

/-- A stage-1 frame: the header plus the raw payload slice (`NlMsgRaw`). -/
structure NlMsgRaw where
  hdr : NlMsgHdr
  payload : List Nat
  deriving DecidableEq, Repr

/-- The frame-stage loop of `parse_nlm_raw`, starting at cursor offset
`pos`: while `nlmsg_ok`, read the header; stop without emitting on the
control `Done` marker (`NlMsgCtrlType::Done = 3`); otherwise emit the
header with its raw payload slice and advance past the frame (header plus
aligned payload length). -/
def parse_nlm_raw_from (data : List Nat) (pos : Nat) : List NlMsgRaw :=
  if h : nlmsg_ok ⟨data, pos⟩ = true then
    let nlh := readNlMsgHdr data pos
    if nlh.ty = 3 then
      []
    else
      ⟨nlh, (data.drop (pos + 16)).take nlh.payload_len⟩ ::
        parse_nlm_raw_from data (pos + 16 + nlmsg_align nlh.payload_len)
  else
    []
termination_by data.length - pos
decreasing_by
  unfold nlmsg_ok at h
  simp only [AlignedBuf.rem_len] at h
  split at h
  · omega
  · simp at h

/-- `parse_nlm_raw`: run the frame stage over a whole buffer. -/
def parse_nlm_raw (buf : List Nat) : List NlMsgRaw :=
  parse_nlm_raw_from buf 0

/-- The `RtFamily` enum (`repr(u8)`): `Unspec = 0`, `IPv4 = 2`,
`IPv6 = 10`. -/
inductive RtFamily where
  | Unspec
  | IPv4
  | IPv6
  deriving DecidableEq, Repr

/-- `RtMsgHdr` (12 bytes): the address family, seven further one-byte
fields, and a u32 flag set. -/
structure RtMsgHdr where
  family : RtFamily
  dst_len : Nat
  src_len : Nat
  tos : Nat
  table : Nat
  protocol : Nat
  scope : Nat
  ty : Nat
  flags : Nat
  deriving DecidableEq, Repr

/-- A stage-2 raw attribute: header plus raw payload slice (`RtAttrRaw`). -/
structure RtAttrRaw where
  hdr : RtAttrHdr
  payload : List Nat
  deriving DecidableEq, Repr

/-- `RtAttrKind`: `Iif = 3`, `Oif = 4`, `Gateway = 5`, anything else
`Oth`. -/
inductive RtAttrKind where
  | Iif
  | Oif
  | Gateway
  | Oth (x : Nat)
  deriving DecidableEq, Repr

/-- `RtAttrType::to_kind`: dispatch a raw u16 type tag. -/
def RtAttrType.to_kind (x : Nat) : RtAttrKind :=
  if x = 3 then .Iif
  else if x = 4 then .Oif
  else if x = 5 then .Gateway
  else .Oth x

/-- `std::net::IpAddr`, with each address carried as its octet list. -/
inductive IpAddrM where
  | V4 (octets : List Nat)
  | V6 (octets : List Nat)
  deriving DecidableEq, Repr

/-- `RtRespAttr`: a decoded response attribute. -/
inductive RtRespAttr where
  | Gateway (ip : IpAddrM)
  | OIf (ifindex : Nat)
  | Oth
  deriving DecidableEq, Repr

/-- `RtRespAttr::parse_from_raw_rta`: dispatch on the attribute's type tag.
`Iif` is `todo!()` (`none`); `Oif` reads an unaligned native-order 32-bit
integer from the payload (an out-of-bounds read when the payload has fewer
than 4 bytes, `none`); `Gateway` decodes an address whose width is chosen by
the enclosing route header's family — `unimplemented!()` for `Unspec`, a
4-octet IPv4 address or a 16-octet IPv6 address otherwise, where the
`try_into().unwrap()` panics (`none`) unless the payload slice is exactly
that wide; any other tag is `Oth` with the value discarded. -/
def RtRespAttr.parse_from_raw_rta (rth : RtMsgHdr) (rta : RtAttrRaw) :
    Option RtRespAttr :=
  match RtAttrType.to_kind rta.hdr.ty with
  | .Iif => none
  | .Oif =>
    if 4 ≤ rta.payload.length then some (.OIf (readLE rta.payload 0 4))
    else none
  | .Gateway =>
    match rth.family with
    | .Unspec => none
    | .IPv4 =>
      if rta.payload.length = 4 then some (.Gateway (.V4 rta.payload))
      else none
    | .IPv6 =>
      if rta.payload.length = 16 then some (.Gateway (.V6 rta.payload))
      else none
  | .Oth _ => some .Oth

/-- A parsed route message: route header plus decoded attributes
(`RtRespMsg`). -/
structure RtRespMsg where
  hdr : RtMsgHdr
  attrs : List RtRespAttr
  deriving DecidableEq, Repr

/-- The first output-interface attribute of a message (the
`find_map` over `RtRespAttr::OIf` in `get_gateway_ipv4_by_ifname`). -/
def firstOIf (attrs : List RtRespAttr) : Option Nat :=
  attrs.findSome? fun a =>
    match a with
    | .OIf i => some i
    | _ => none

/-- The first gateway attribute's address, if any (the `find_map` over
`RtRespAttr::Gateway`). -/
def firstGatewayIp (attrs : List RtRespAttr) : Option IpAddrM :=
  attrs.findSome? fun a =>
    match a with
    | .Gateway ip => some ip
    | _ => none

/-- The Filter/Extract loop of `get_gateway_ipv4_by_ifname` over the parsed
response messages: skip messages whose family is not IPv4, skip messages
without an output-interface attribute or whose attribute differs from the
requested index, and return the first gateway of the first remaining message
that has one (`unreachable!()`, modelled `none`, when that gateway is an
IPv6 address); `some none` when the loop falls through. -/
def gateway_filter_extract (ifindex : Nat) :
    List RtRespMsg → Option (Option (List Nat))
  | [] => some none
  | m :: rest =>
    if m.hdr.family ≠ RtFamily.IPv4 then gateway_filter_extract ifindex rest
    else
      match firstOIf m.attrs with
      | none => gateway_filter_extract ifindex rest
      | some oif =>
        if ifindex ≠ oif then gateway_filter_extract ifindex rest
        else
          match firstGatewayIp m.attrs with
          | none => gateway_filter_extract ifindex rest
          | some (IpAddrM.V4 a) => some (some a)
          | some (IpAddrM.V6 _) => none

/-- Specification-side Filter/Extract, following the spec's words: keep only
messages whose family is IPv4 and whose output-interface attribute equals the
requested index, then return the first gateway address among them. -/
def spec_filter_extract (ifindex : Nat) (msgs : List RtRespMsg) :
    Option (List Nat) :=
  (msgs.filter fun m =>
      decide (m.hdr.family = RtFamily.IPv4 ∧ firstOIf m.attrs = some ifindex)).findSome?
    fun m =>
      match firstGatewayIp m.attrs with
      | some (IpAddrM.V4 a) => some a
      | _ => none

/-- Is this attribute an IPv6 gateway? -/
def isV6Gateway : RtRespAttr → Bool
  | .Gateway (.V6 _) => true
  | _ => false

/-- No attribute of the message is an IPv6 gateway (true of every message the
attribute-decode stage produces from an IPv4-family route header). -/
def noV6Gateway (m : RtRespMsg) : Prop :=
  ∀ a ∈ m.attrs, isV6Gateway a = false

instance (m : RtRespMsg) : Decidable (noV6Gateway m) :=
  List.decidableBAll _ m.attrs

/-! Concrete example values used when evaluating the code on fixed inputs. -/

/-- A well-formed Unix socket address: family `Local`, zeroed path. -/
def unixExample : SockAddrUn := ⟨SaFamily.Local, List.replicate 108 0⟩

/-- A well-formed link-layer socket address: family `Packet`, protocol
`0x0008` (IPv4, big-endian stored pattern), interface 2, Ethernet hardware
type, 6-byte MAC. -/
def packetExample : SockAddrLL :=
  ⟨SaFamily.Packet, 8, 2, 256, 0, 6, [1, 2, 3, 4, 5, 6, 0, 0]⟩

/-- A well-formed Netlink socket address: family `NetlinkRoute = 16`, the
kernel peer (port id 0, no groups). -/
def netlinkExample : SockAddrNL := ⟨16, 0, 0, 0⟩

/-- A well-formed IPv4 socket address: family `Inet`, port pattern for 80,
address pattern for 127.0.0.1. -/
def inetExample : SockAddrIn := ⟨SaFamily.Inet, 80, 16777343, List.replicate 8 0⟩

/-- A well-formed IPv6 socket address. -/
def inet6Example : SockAddrIn6 :=
  ⟨SaFamily.Inet6, 80, 0, List.replicate 16 1, 3⟩

/-- An IPv4 route message for interface 7 with gateway 192.168.1.1. -/
def msgForIface7 : RtRespMsg :=
  ⟨⟨RtFamily.IPv4, 0, 0, 0, 254, 0, 0, 0, 0⟩,
    [RtRespAttr.OIf 7, RtRespAttr.Gateway (IpAddrM.V4 [192, 168, 1, 1])]⟩

/-- An IPv4 route message for interface 9 with gateway 10.0.0.1. -/
def msgForIface9 : RtRespMsg :=
  ⟨⟨RtFamily.IPv4, 0, 0, 0, 254, 0, 0, 0, 0⟩,
    [RtRespAttr.OIf 9, RtRespAttr.Gateway (IpAddrM.V4 [10, 0, 0, 1])]⟩

/-- A response buffer: one 20-byte `NewRoute` frame with payload
`[1, 2, 3, 4]`, then a 16-byte `Done` control frame. -/
def twoFrameBuf : List Nat :=
  [20, 0, 0, 0, 24, 0, 2, 0, 0, 0, 0, 0, 0, 0, 0, 0] ++ [1, 2, 3, 4] ++
    [16, 0, 0, 0, 3, 0, 0, 0, 0, 0, 0, 0, 0, 0, 0, 0]

/-! Helper lemmas (big-endian scalar wrapper) -/

theorem length_bytesLE (w x : Nat) : (bytesLE w x).length = w := by
  induction w generalizing x with
  | zero => rfl
  | succ w ih => simp [bytesLE, ih]

theorem mem_bytesLE_lt (w x : Nat) : ∀ b ∈ bytesLE w x, b < 256 := by
  induction w generalizing x with
  | zero => simp [bytesLE]
  | succ w ih =>
    intro b hb
    simp only [bytesLE, List.mem_cons] at hb
    rcases hb with h | h
    · omega
    · exact ih _ _ h

theorem fromBytesLE_bytesLE (w x : Nat) :
    fromBytesLE (bytesLE w x) = x % 256 ^ w := by
  induction w generalizing x with
  | zero => simp [bytesLE, fromBytesLE, Nat.mod_one]
  | succ w ih =>
    simp only [bytesLE, fromBytesLE, ih]
    rw [pow_succ', Nat.mod_mul]

theorem bytesLE_fromBytesLE (l : List Nat) (h : ∀ b ∈ l, b < 256) :
    bytesLE l.length (fromBytesLE l) = l := by
  induction l with
  | nil => rfl
  | cons b bs ih =>
    have hb : b < 256 := h b (List.mem_cons_self b bs)
    have hbs : ∀ c ∈ bs, c < 256 := fun c hc => h c (List.mem_cons_of_mem b hc)
    simp only [List.length_cons, bytesLE, fromBytesLE]
    have h1 : (b + 256 * fromBytesLE bs) % 256 = b := by omega
    have h2 : (b + 256 * fromBytesLE bs) / 256 = fromBytesLE bs := by omega
    rw [h1, h2, ih hbs]

theorem bytesLE_bswap (w x : Nat) :
    bytesLE w (bswap w x) = (bytesLE w x).reverse := by
  have hlen : (bytesLE w x).reverse.length = w := by
    simp [length_bytesLE]
  have hlt : ∀ b ∈ (bytesLE w x).reverse, b < 256 := by
    intro b hb
    exact mem_bytesLE_lt w x b (List.mem_reverse.mp hb)
  calc bytesLE w (bswap w x)
      = bytesLE (bytesLE w x).reverse.length (fromBytesLE (bytesLE w x).reverse) := by
        rw [hlen]; rfl
    _ = (bytesLE w x).reverse := bytesLE_fromBytesLE _ hlt

theorem bswap_bswap (w x : Nat) (h : x < 256 ^ w) : bswap w (bswap w x) = x := by
  have h1 : bswap w (bswap w x) = fromBytesLE (bytesLE w (bswap w x)).reverse := rfl
  rw [h1, bytesLE_bswap, List.reverse_reverse, fromBytesLE_bytesLE,
    Nat.mod_eq_of_lt h]

theorem natFromBe_natToBe (hostLE : Bool) (w x : Nat) (h : x < 256 ^ w) :
    natFromBe hostLE w (natToBe hostLE w x) = x := by
  cases hostLE <;> simp [natToBe, natFromBe, bswap_bswap w x h]

theorem to_ne_from_ne (hostLE : Bool) (w x : Nat) (h : x < 256 ^ w) :
    (UBe.from_ne hostLE w x).to_ne hostLE = x :=
  natFromBe_natToBe hostLE w x h

theorem bytesLE_natToBe_true (w x : Nat) :
    bytesLE w (natToBe true w x) = bytesBE w x := by
  simp only [natToBe, if_pos, bytesBE]
  exact bytesLE_bswap w x

/-! Helper lemmas (gateway filter) -/

theorem gateway_mem_of_firstGatewayIp (attrs : List RtRespAttr) (ip : IpAddrM)
    (h : firstGatewayIp attrs = some ip) : RtRespAttr.Gateway ip ∈ attrs := by
  unfold firstGatewayIp at h
  obtain ⟨a, ha, hfa⟩ := List.exists_of_findSome?_eq_some h
  cases a <;> simp_all

theorem spec_filter_extract_cons (ifindex : Nat) (m : RtRespMsg)
    (rest : List RtRespMsg) :
    spec_filter_extract ifindex (m :: rest) =
      if m.hdr.family = RtFamily.IPv4 ∧ firstOIf m.attrs = some ifindex then
        match firstGatewayIp m.attrs with
        | some (IpAddrM.V4 a) => some a
        | _ => spec_filter_extract ifindex rest
      else spec_filter_extract ifindex rest := by
  unfold spec_filter_extract
  rw [List.filter_cons]
  by_cases h : m.hdr.family = RtFamily.IPv4 ∧ firstOIf m.attrs = some ifindex
  · rw [if_pos (by simp [h]), List.findSome?_cons, if_pos h]
    rcases hg : firstGatewayIp m.attrs with _ | ip
    · rfl
    · rcases ip with o | o <;> rfl
  · rw [if_neg (by simp [h]), if_neg h]

/-! Claim theorems -/

/-- C1: evaluating `SockAddr::from_raw_parts` on each variant's own memory
image together with its own `address_len`.  The IPv4 and IPv6 variants
round-trip, but the Unix variant (family `Local = 1`) runs into the
link-layer arm and its `assert_eq!(addrlen, size_of::<SockAddrLL>())`
(110 vs 20) panics; the link-layer variant (family `Packet = 17`) runs into
the Unix arm where `copy_from_slice` of 18 bytes into `[u8; 108]` panics;
and the Netlink variant's family tag 16 is no `SaFamily` discriminant, so
`SaFamily::from_bits` is undefined behaviour.  The family tag therefore does
not select the variant whose layout matches it, and the round-trip fails for
the Unix, link-layer and Netlink variants. -/
theorem c1_from_raw_parts_eval :
    SockAddr.from_raw_parts (SockAddr.Inet inetExample).toBytes
        (SockAddr.Inet inetExample).address_len = some (SockAddr.Inet inetExample) ∧
    SockAddr.from_raw_parts (SockAddr.Inet6 inet6Example).toBytes
        (SockAddr.Inet6 inet6Example).address_len = some (SockAddr.Inet6 inet6Example) ∧
    SockAddr.from_raw_parts (SockAddr.Unix unixExample).toBytes
        (SockAddr.Unix unixExample).address_len = none ∧
    SockAddr.from_raw_parts (SockAddr.Packet packetExample).toBytes
        (SockAddr.Packet packetExample).address_len = none ∧
    SockAddr.from_raw_parts (SockAddr.Netlink netlinkExample).toBytes
        (SockAddr.Netlink netlinkExample).address_len = none := by
  refine ⟨?_, ?_, ?_, ?_, ?_⟩ <;> decide

/-- C2 counterexample: on the little-endian pinned target,
`U16Be::from_ne(0x1234).to_ne_bytes()` is `[0x34, 0x12]`, not the
big-endian encoding `[0x12, 0x34]` — `to_ne_bytes` returns native-order
bytes, so its result is not the big-endian encoding independent of host
byte order. -/
theorem c2_to_ne_bytes_not_be :
    UBe.to_ne_bytes true (UBe.from_ne true 2 4660) = [52, 18] ∧
    bytesBE 2 4660 = [18, 52] ∧
    UBe.to_ne_bytes true (UBe.from_ne true 2 4660) ≠ bytesBE 2 4660 := by
  refine ⟨?_, ?_, ?_⟩ <;> decide

/-- C2 (amended): for every width `w` in bytes and every `w`-byte value `x`,
on either host byte order the stored bit pattern of `from_ne(x)` has the
big-endian encoding of `x` as its memory image, while `to_ne_bytes` returns
the native-order byte encoding of `x` (hence the big-endian encoding exactly
on big-endian hosts). -/
theorem c2_from_ne_bytes (hostLE : Bool) (w x : Nat) (h : x < 256 ^ w) :
    UBe.storedBytes hostLE (UBe.from_ne hostLE w x) = bytesBE w x ∧
    UBe.to_ne_bytes hostLE (UBe.from_ne hostLE w x) = natToNeBytes hostLE w x := by
  constructor
  · cases hostLE
    · simp [UBe.storedBytes, UBe.from_ne, natToBe, natToNeBytes]
    · simp only [UBe.storedBytes, UBe.from_ne, natToNeBytes, if_pos]
      exact bytesLE_natToBe_true w x
  · unfold UBe.to_ne_bytes
    rw [to_ne_from_ne hostLE w x h]

/-- C2 witness: the amended statement evaluated at the little-endian host,
width 2, value 0x1234. -/
theorem c2_from_ne_bytes_witness :
    UBe.storedBytes true (UBe.from_ne true 2 4660) = bytesBE 2 4660 ∧
    UBe.to_ne_bytes true (UBe.from_ne true 2 4660) = natToNeBytes true 2 4660 :=
  c2_from_ne_bytes true 2 4660 (by decide)

/-- C3 counterexample: a mock transport that reports EINTR once and then
transfers all 4 bytes makes `send_all` return `Err(EINTR)`, while the
never-interrupted transport returns `Ok(4)` — the send-direction helpers do
not retry on EINTR, contrary to the claim. -/
theorem c3_send_all_no_eintr_retry :
    send_all 4 0 [IoOutcome.err PosixError.EINTR, IoOutcome.ok 4] =
      some (Except.error PosixError.EINTR) ∧
    send_all 4 0 [IoOutcome.ok 4] = some (Except.ok 4) ∧
    send_all 4 0 [IoOutcome.err PosixError.EINTR, IoOutcome.ok 4] ≠
      send_all 4 0 [IoOutcome.ok 4] := by
  refine ⟨?_, ?_, ?_⟩ <;> decide

/-- C3 (amended): the receive-direction helpers `recv_all`/`recvfrom_all`
retry on EINTR without consuming progress, so an interrupted-once transport
yields the same final result as a never-interrupted one; the send-direction
helpers `send_all`/`sendto_all` do not retry — they propagate EINTR
immediately as an error. -/
theorem c3_eintr_retry_recv_only (cnt msgLen : Nat) (rest : List IoOutcome) :
    recv_all cnt (IoOutcome.err PosixError.EINTR :: rest) = recv_all cnt rest ∧
    recvfrom_all cnt (IoOutcome.err PosixError.EINTR :: rest) =
      recvfrom_all cnt rest ∧
    send_all msgLen cnt (IoOutcome.err PosixError.EINTR :: rest) =
      some (Except.error PosixError.EINTR) ∧
    sendto_all msgLen cnt (IoOutcome.err PosixError.EINTR :: rest) =
      some (Except.error PosixError.EINTR) :=
  ⟨rfl, rfl, rfl, rfl⟩

/-- C4: one step of the `recv_all` and `recvfrom_all` loops: a 0-byte
receive or EAGAIN stops the loop and returns the byte count accumulated so
far as a success, EINTR retries without consuming progress, any other error
aborts the loop and propagates, and a positive count accumulates and
continues. -/
theorem c4_recv_all_stop_conditions (cnt n : Nat) (rest : List IoOutcome)
    (e : PosixError) (hA : e ≠ PosixError.EAGAIN) (hI : e ≠ PosixError.EINTR) :
    recv_all cnt (IoOutcome.ok 0 :: rest) = some (Except.ok cnt) ∧
    recv_all cnt (IoOutcome.err PosixError.EAGAIN :: rest) =
      some (Except.ok cnt) ∧
    recv_all cnt (IoOutcome.err PosixError.EINTR :: rest) = recv_all cnt rest ∧
    recv_all cnt (IoOutcome.err e :: rest) = some (Except.error e) ∧
    recv_all cnt (IoOutcome.ok (n + 1) :: rest) = recv_all (cnt + (n + 1)) rest ∧
    recvfrom_all cnt (IoOutcome.ok 0 :: rest) = some (Except.ok cnt) ∧
    recvfrom_all cnt (IoOutcome.err PosixError.EAGAIN :: rest) =
      some (Except.ok cnt) ∧
    recvfrom_all cnt (IoOutcome.err PosixError.EINTR :: rest) =
      recvfrom_all cnt rest ∧
    recvfrom_all cnt (IoOutcome.err e :: rest) = some (Except.error e) ∧
    recvfrom_all cnt (IoOutcome.ok (n + 1) :: rest) =
      recvfrom_all (cnt + (n + 1)) rest := by
  refine ⟨rfl, rfl, rfl, ?_, rfl, rfl, rfl, rfl, ?_, rfl⟩ <;>
    simp [recv_all, recvfrom_all, hA, hI]

/-- C4 witness: the stop conditions evaluated on concrete mock transports,
with EPERM (errno 1) as the aborting error. -/
theorem c4_recv_all_stop_conditions_witness :
    recv_all 0 [IoOutcome.err ⟨1⟩] = some (Except.error ⟨1⟩) ∧
    recvfrom_all 3 [IoOutcome.err PosixError.EAGAIN] = some (Except.ok 3) :=
  ⟨(c4_recv_all_stop_conditions 0 0 [] ⟨1⟩ (by decide) (by decide)).2.2.2.1,
    (c4_recv_all_stop_conditions 3 0 [] ⟨1⟩ (by decide) (by decide)).2.2.2.2.2.2.1⟩

/-- C5: `nlmsg_ok` (and `rta_ok`) is false on an empty buffer, on a
remaining buffer shorter than the 16-byte (4-byte) header, and on a declared
`len` smaller than the header size or larger than the remaining length; it
is true exactly when a complete in-bounds frame (attribute) is present. -/
theorem c5_frame_validity (b : AlignedBuf) :
    (nlmsg_ok b = true ↔
      16 ≤ b.rem_len ∧ 16 ≤ readLE b.data b.pos 4 ∧
        readLE b.data b.pos 4 ≤ b.rem_len) ∧
    (b.rem_len = 0 → nlmsg_ok b = false) ∧
    (b.rem_len < 16 → nlmsg_ok b = false) ∧
    (readLE b.data b.pos 4 < 16 → nlmsg_ok b = false) ∧
    (b.rem_len < readLE b.data b.pos 4 → nlmsg_ok b = false) ∧
    (rta_ok b = true ↔
      4 ≤ b.rem_len ∧ 4 ≤ readLE b.data b.pos 2 ∧
        readLE b.data b.pos 2 ≤ b.rem_len) ∧
    (b.rem_len = 0 → rta_ok b = false) ∧
    (b.rem_len < 4 → rta_ok b = false) ∧
    (readLE b.data b.pos 2 < 4 → rta_ok b = false) ∧
    (b.rem_len < readLE b.data b.pos 2 → rta_ok b = false) := by
  have hn : nlmsg_ok b = true ↔
      16 ≤ b.rem_len ∧ 16 ≤ readLE b.data b.pos 4 ∧
        readLE b.data b.pos 4 ≤ b.rem_len := by
    unfold nlmsg_ok
    by_cases h : 16 ≤ b.rem_len <;> simp [h]
  have hr : rta_ok b = true ↔
      4 ≤ b.rem_len ∧ 4 ≤ readLE b.data b.pos 2 ∧
        readLE b.data b.pos 2 ≤ b.rem_len := by
    unfold rta_ok
    by_cases h : 4 ≤ b.rem_len <;> simp [h]
  refine ⟨hn, ?_, ?_, ?_, ?_, hr, ?_, ?_, ?_, ?_⟩ <;>
  · intro hp
    rcases Bool.eq_false_or_eq_true (nlmsg_ok b) with h | h <;>
      rcases Bool.eq_false_or_eq_true (rta_ok b) with h2 | h2 <;>
      first
        | assumption
        | (exact absurd (hn.mp (by assumption)) (by omega))
        | (exact absurd (hr.mp (by assumption)) (by omega))

/-- C5 witness: both predicates on the empty buffer, and on a 16-byte
buffer whose declared frame length 16 is in bounds. -/
theorem c5_frame_validity_witness :
    nlmsg_ok ⟨[], 0⟩ = false ∧
    rta_ok ⟨[], 0⟩ = false ∧
    nlmsg_ok ⟨[16, 0, 0, 0, 26, 0, 1, 3, 0, 0, 0, 0, 0, 0, 0, 0], 0⟩ = true :=
  ⟨(c5_frame_validity ⟨[], 0⟩).2.1 rfl,
    (c5_frame_validity ⟨[], 0⟩).2.2.2.2.2.2.1 rfl,
    (c5_frame_validity ⟨[16, 0, 0, 0, 26, 0, 1, 3, 0, 0, 0, 0, 0, 0, 0, 0], 0⟩).1.mpr
      (by refine ⟨?_, ?_, ?_⟩ <;> decide)⟩

/-- C6: for every Netlink message header, `payload_len()` is the declared
`len` minus the 16-byte header size when `len` is at least 16 and 0
otherwise; for every route attribute header, the same against the 4-byte
header size. -/
theorem c6_payload_len (h : NlMsgHdr) (a : RtAttrHdr) :
    (16 ≤ h.len → h.payload_len = h.len - 16) ∧
    (h.len < 16 → h.payload_len = 0) ∧
    (4 ≤ a.len → a.payload_len = a.len - 4) ∧
    (a.len < 4 → a.payload_len = 0) := by
  unfold NlMsgHdr.payload_len RtAttrHdr.payload_len
  refine ⟨fun hh => ?_, fun hh => ?_, fun hh => ?_, fun hh => ?_⟩
  · rw [if_neg (by omega)]
  · rw [if_pos hh]
  · rw [if_neg (by omega)]
  · rw [if_pos hh]

/-- C6 witness: a 20-byte message header has a 4-byte payload; a truncated
attribute header with declared length 3 has payload length 0. -/
theorem c6_payload_len_witness :
    (NlMsgHdr.mk 20 26 1 0 0).payload_len = 4 ∧
    (RtAttrHdr.mk 3 4).payload_len = 0 :=
  ⟨(c6_payload_len ⟨20, 26, 1, 0, 0⟩ ⟨3, 4⟩).1 (by decide),
    (c6_payload_len ⟨20, 26, 1, 0, 0⟩ ⟨3, 4⟩).2.2.2 (by decide)⟩

/-- C7: the frame stage tests frame validity at each position: when it
fails (empty or truncated remainder) the parser terminates normally with the
frames collected so far; a frame whose type tag is the control `Done` marker
stops the parse without being emitted; any other valid frame is emitted as
its header plus raw payload slice and the cursor advances past the frame's
aligned length. -/
theorem c7_parse_nlm_raw_step (data : List Nat) (pos : Nat) :
    parse_nlm_raw data = parse_nlm_raw_from data 0 ∧
    (nlmsg_ok ⟨data, pos⟩ = false → parse_nlm_raw_from data pos = []) ∧
    (nlmsg_ok ⟨data, pos⟩ = true → (readNlMsgHdr data pos).ty = 3 →
      parse_nlm_raw_from data pos = []) ∧
    (nlmsg_ok ⟨data, pos⟩ = true → (readNlMsgHdr data pos).ty ≠ 3 →
      parse_nlm_raw_from data pos =
        ⟨readNlMsgHdr data pos,
          (data.drop (pos + 16)).take (readNlMsgHdr data pos).payload_len⟩ ::
          parse_nlm_raw_from data
            (pos + 16 + nlmsg_align (readNlMsgHdr data pos).payload_len)) := by
  refine ⟨rfl, fun h => ?_, fun h ht => ?_, fun h ht => ?_⟩
  · rw [parse_nlm_raw_from]
    simp [h]
  · rw [parse_nlm_raw_from]
    simp [h, ht]
  · rw [parse_nlm_raw_from]
    simp [h, ht]

/-- C7 witness: a buffer holding one 20-byte route frame (payload
`[1, 2, 3, 4]`) followed by a `Done` control frame parses to exactly the
first frame; the empty buffer parses to no frames. -/
theorem c7_parse_nlm_raw_step_witness :
    parse_nlm_raw_from [] 0 = [] ∧
    parse_nlm_raw_from twoFrameBuf 0 = [⟨⟨20, 24, 2, 0, 0⟩, [1, 2, 3, 4]⟩] := by
  constructor
  · exact (c7_parse_nlm_raw_step [] 0).2.1 (by decide)
  · rw [(c7_parse_nlm_raw_step twoFrameBuf 0).2.2.2 (by decide) (by decide)]
    have e : 0 + 16 + nlmsg_align (readNlMsgHdr twoFrameBuf 0).payload_len = 20 := by
      decide
    rw [e, (c7_parse_nlm_raw_step twoFrameBuf 20).2.2.1 (by decide) (by decide)]
    decide

/-- C8: on any parsed message list in which no attribute is an IPv6 gateway
(as holds for every IPv4-family message the decode stage produces), the
Filter/Extract loop keeps exactly the messages whose family is IPv4 and
whose output-interface attribute equals the requested index and returns the
first gateway among them (`some` = no panic); in particular a list with no
matching gateway, including the empty list, yields `none` rather than an
error. -/
theorem c8_filter_extract (ifindex : Nat) (msgs : List RtRespMsg)
    (h : ∀ m ∈ msgs, noV6Gateway m) :
    gateway_filter_extract ifindex msgs =
      some (spec_filter_extract ifindex msgs) := by
  induction msgs with
  | nil => rfl
  | cons m rest ih =>
    have hm : noV6Gateway m := h m (List.mem_cons_self m rest)
    have ihr := ih fun x hx => h x (List.mem_cons_of_mem m hx)
    rw [spec_filter_extract_cons]
    unfold gateway_filter_extract
    by_cases hf : m.hdr.family = RtFamily.IPv4
    · rcases ho : firstOIf m.attrs with _ | oif
      · simp [hf, ho, ihr]
      · by_cases hoi : ifindex = oif
        · subst hoi
          rcases hg : firstGatewayIp m.attrs with _ | ip
          · simp [hf, ho, hg, ihr]
          · rcases ip with o | o
            · simp [hf, ho, hg]
            · exact absurd (hm _ (gateway_mem_of_firstGatewayIp m.attrs _ hg))
                (by simp [isV6Gateway])
        · have hoi2 : ¬oif = ifindex := fun hh => hoi hh.symm
          simp [hf, ho, hoi, hoi2, ihr]
    · simp [hf, ihr]

/-- C8 witness: a synthetic response with a route for interface 7 (gateway
192.168.1.1) and a route for interface 9 (gateway 10.0.0.1), resolved for
interface 7, yields the first gateway and never the second; the empty
response yields `none` without an error. -/
theorem c8_filter_extract_witness :
    gateway_filter_extract 7 [msgForIface7, msgForIface9] =
      some (some [192, 168, 1, 1]) ∧
    gateway_filter_extract 7 [] = some none :=
  ⟨(c8_filter_extract 7 [msgForIface7, msgForIface9] (by decide)).trans
      (by decide),
    (c8_filter_extract 7 [] (by decide)).trans (by decide)⟩

/-- C9: the attribute-decode stage dispatches on the type tag: an
output-interface attribute (tag 4) decodes the native-order 32-bit integer
at the start of its payload; a gateway attribute (tag 5) decodes an address
whose width — 4 octets for IPv4, 16 for IPv6 — is chosen by the enclosing
route header's family, not by the attribute; any unrecognized tag decodes to
the opaque `Oth` variant with its value discarded. -/
theorem c9_attr_decode (rth : RtMsgHdr) (rta : RtAttrRaw) :
    (rta.hdr.ty = 4 → 4 ≤ rta.payload.length →
      RtRespAttr.parse_from_raw_rta rth rta =
        some (RtRespAttr.OIf (readLE rta.payload 0 4))) ∧
    (rta.hdr.ty = 5 → rth.family = RtFamily.IPv4 → rta.payload.length = 4 →
      RtRespAttr.parse_from_raw_rta rth rta =
        some (RtRespAttr.Gateway (IpAddrM.V4 rta.payload))) ∧
    (rta.hdr.ty = 5 → rth.family = RtFamily.IPv6 → rta.payload.length = 16 →
      RtRespAttr.parse_from_raw_rta rth rta =
        some (RtRespAttr.Gateway (IpAddrM.V6 rta.payload))) ∧
    (rta.hdr.ty ≠ 3 → rta.hdr.ty ≠ 4 → rta.hdr.ty ≠ 5 →
      RtRespAttr.parse_from_raw_rta rth rta = some RtRespAttr.Oth) := by
  unfold RtRespAttr.parse_from_raw_rta RtAttrType.to_kind
  refine ⟨fun ht hl => ?_, fun ht hf hl => ?_, fun ht hf hl => ?_,
    fun h3 h4 h5 => ?_⟩
  · simp [ht, hl]
  · simp [ht, hf, hl]
  · simp [ht, hf, hl]
  · simp [h3, h4, h5]

/-- C9 witness: a tag-4 attribute with payload `[7, 0, 0, 0]` decodes to
output-interface 7; a tag-5 attribute under an IPv4 route header with a
4-byte payload decodes to that IPv4 gateway; a tag-1 attribute decodes to
`Oth`. -/
theorem c9_attr_decode_witness :
    RtRespAttr.parse_from_raw_rta ⟨RtFamily.IPv4, 0, 0, 0, 254, 0, 0, 0, 0⟩
        ⟨⟨8, 4⟩, [7, 0, 0, 0]⟩ = some (RtRespAttr.OIf 7) ∧
    RtRespAttr.parse_from_raw_rta ⟨RtFamily.IPv4, 0, 0, 0, 254, 0, 0, 0, 0⟩
        ⟨⟨8, 5⟩, [192, 168, 1, 1]⟩ =
      some (RtRespAttr.Gateway (IpAddrM.V4 [192, 168, 1, 1])) ∧
    RtRespAttr.parse_from_raw_rta ⟨RtFamily.IPv4, 0, 0, 0, 254, 0, 0, 0, 0⟩
        ⟨⟨8, 1⟩, [1, 2, 3, 4]⟩ = some RtRespAttr.Oth := by
  refine ⟨?_, ?_, ?_⟩
  · exact ((c9_attr_decode ⟨RtFamily.IPv4, 0, 0, 0, 254, 0, 0, 0, 0⟩
      ⟨⟨8, 4⟩, [7, 0, 0, 0]⟩).1 (by decide) (by decide)).trans (by decide)
  · exact (c9_attr_decode ⟨RtFamily.IPv4, 0, 0, 0, 254, 0, 0, 0, 0⟩
      ⟨⟨8, 5⟩, [192, 168, 1, 1]⟩).2.1 (by decide) (by decide) (by decide)
  · exact (c9_attr_decode ⟨RtFamily.IPv4, 0, 0, 0, 254, 0, 0, 0, 0⟩
      ⟨⟨8, 1⟩, [1, 2, 3, 4]⟩).2.2.2 (by decide) (by decide) (by decide)

/-- C10: the attribute decoder is not total over recognized tags: an
input-interface attribute (tag 3) always panics (`todo!()`); a gateway
attribute under an unspecified route family panics (`unimplemented!()`);
and a gateway attribute whose payload slice is not exactly 4 bytes under
IPv4, or not exactly 16 bytes under IPv6, panics in
`try_into().unwrap()` — all modelled as `none`, never a value or a
recoverable error. -/
theorem c10_attr_decode_panics (rth : RtMsgHdr) (rta : RtAttrRaw) :
    (rta.hdr.ty = 3 → RtRespAttr.parse_from_raw_rta rth rta = none) ∧
    (rta.hdr.ty = 5 → rth.family = RtFamily.Unspec →
      RtRespAttr.parse_from_raw_rta rth rta = none) ∧
    (rta.hdr.ty = 5 → rth.family = RtFamily.IPv4 → rta.payload.length ≠ 4 →
      RtRespAttr.parse_from_raw_rta rth rta = none) ∧
    (rta.hdr.ty = 5 → rth.family = RtFamily.IPv6 → rta.payload.length ≠ 16 →
      RtRespAttr.parse_from_raw_rta rth rta = none) := by
  unfold RtRespAttr.parse_from_raw_rta RtAttrType.to_kind
  refine ⟨fun ht => ?_, fun ht hf => ?_, fun ht hf hl => ?_,
    fun ht hf hl => ?_⟩
  · simp [ht]
  · simp [ht, hf]
  · simp [ht, hf, hl]
  · simp [ht, hf, hl]

/-- C10 witness: an input-interface attribute, a gateway under the
unspecified family, and a 3-byte gateway payload under IPv4 all panic
(decode to `none`). -/
theorem c10_attr_decode_panics_witness :
    RtRespAttr.parse_from_raw_rta ⟨RtFamily.IPv4, 0, 0, 0, 254, 0, 0, 0, 0⟩
        ⟨⟨8, 3⟩, [7, 0, 0, 0]⟩ = none ∧
    RtRespAttr.parse_from_raw_rta ⟨RtFamily.Unspec, 0, 0, 0, 254, 0, 0, 0, 0⟩
        ⟨⟨8, 5⟩, [192, 168, 1, 1]⟩ = none ∧
    RtRespAttr.parse_from_raw_rta ⟨RtFamily.IPv4, 0, 0, 0, 254, 0, 0, 0, 0⟩
        ⟨⟨7, 5⟩, [192, 168, 1]⟩ = none :=
  ⟨(c10_attr_decode_panics ⟨RtFamily.IPv4, 0, 0, 0, 254, 0, 0, 0, 0⟩
      ⟨⟨8, 3⟩, [7, 0, 0, 0]⟩).1 (by decide),
    (c10_attr_decode_panics ⟨RtFamily.Unspec, 0, 0, 0, 254, 0, 0, 0, 0⟩
      ⟨⟨8, 5⟩, [192, 168, 1, 1]⟩).2.1 (by decide) (by decide),
    (c10_attr_decode_panics ⟨RtFamily.IPv4, 0, 0, 0, 254, 0, 0, 0, 0⟩
      ⟨⟨7, 5⟩, [192, 168, 1]⟩).2.2.1 (by decide) (by decide) (by decide)⟩

end Linuxc
